import Mathlib

/-!
# CHIP-8 interpreter: machine state and one-cycle step

A shallow embedding of `src/interpreter.cpp` (`Chip8::initialise`, `Chip8::loadGame`,
`Chip8::emulateCycle`).  C++ arrays are functions from an index to an element,
and every array access checks the index against the array extent: an access
outside the extent is undefined behaviour in C++ and makes the embedded
operation return `none`.  Unsigned machine integers are natural numbers reduced
modulo `2^w` at each store.
-/

namespace emulator

/-- Modelled from the spec: the header `interpreter.hpp` is not part of the sources;
the extent of `memory` is the 4096 bytes of the data model. -/
def MEMORY_SIZE : Nat := 4096

/-- Modelled from the spec: the header `interpreter.hpp` is not part of the sources;
the extent of `stack` is the 16 return addresses of the data model. -/
def STACK_SIZE : Nat := 16

/-- Modelled from the spec: the header `interpreter.hpp` is not part of the sources;
the extent of `keyboard` is the 16 key latches of the data model. -/
def KEY_COUNT : Nat := 16

/-- Modelled from the spec: the header `interpreter.hpp` is not part of the sources.  The
data model describes `sp` as the current stack depth (0 to 16) and gives no width; it
is taken as an unsigned 8-bit counter.  No result below depends on the width: none of
them reaches a wrap-around of `sp`. -/
def SP_MOD : Nat := 256

/-- The fields of `class Chip8` read or written by `interpreter.cpp`. -/
structure Chip8 where
  memory : Nat → Nat
  V : Nat → Nat
  I : Nat
  pc : Nat
  stack : Nat → Nat
  sp : Nat
  graphics : Nat → Nat
  keyboard : Nat → Nat
  delay_timer : Nat
  sound_timer : Nat

/-- Conversion of a C++ `int` value to `std::uint8_t`. -/
def u8 (z : Int) : Nat := (z % 256).toNat

/-- The function `Chip8::initialise` (lines 5-23).  The table `chip8_fontset` is declared in the
missing header and is a parameter. -/
def initialise (chip8_fontset : Nat → Nat) (s : Chip8) : Chip8 :=
  { s with
    pc := 0x200
    I := 0
    sp := 0
    memory := fun a => if a < 80 then chip8_fontset a % 256 else s.memory a
    graphics := fun _ => 0
    keyboard := fun _ => 0
    delay_timer := 0
    sound_timer := 0 }

/-- The copy loop of `loadGame` (lines 36-40): `memory[i + 512] = buffer[i]` for the bytes
of `buffer` still to copy, `i` being the index of the first of them.  The conversion
`static_cast<std::uint8_t>` keeps the byte modulo 256. -/
def loadGameLoop : List Nat → Nat → (Nat → Nat) → Option (Nat → Nat)
  | [], _, memory => some memory
  | b :: rest, i, memory =>
    if i + 512 < MEMORY_SIZE then
      loadGameLoop rest (i + 1) (Function.update memory (i + 512) (b % 256))
    else none

/-- The function `Chip8::loadGame` (lines 26-47).  The file system is outside the program:
`file` is `none` when the file cannot be opened and otherwise holds the bytes of the
file, which `file.read` puts into `buffer`.  When the file cannot be opened the
function prints a message and changes nothing. -/
def loadGame (file : Option (List Nat)) (s : Chip8) : Option Chip8 :=
  match file with
  | some buffer => (loadGameLoop buffer 0 s.memory).map (fun m => { s with memory := m })
  | none => some s

/-- The fetch of `emulateCycle` (line 52): `memory[pc] << 8 | memory[pc + 1]`, stored
in a `std::uint16_t`. -/
def fetch (s : Chip8) : Option Nat :=
  if s.pc + 1 < MEMORY_SIZE then
    some (((s.memory s.pc <<< 8) ||| s.memory (s.pc + 1)) % 65536)
  else none

/-- Case `0x0000` of `emulateCycle` (lines 62-75). -/
def exec0 (s : Chip8) (opcode : Nat) : Option Chip8 :=
  if opcode &&& 0x000F = 0x0000 then
    -- CLS
    some { s with graphics := fun _ => 0, pc := (s.pc + 2) % 65536 }
  else if opcode &&& 0x000F = 0x000E then
    -- RET: pc = stack[sp]; --sp;
    if s.sp < STACK_SIZE then
      some { s with pc := s.stack s.sp, sp := (s.sp + SP_MOD - 1) % SP_MOD }
    else none
  else some s

/-- Case `0x8000` of `emulateCycle` (lines 113-150): the register file after the inner
switch. -/
def exec8V (V : Nat → Nat) (x y : Nat) (opcode : Nat) : Nat → Nat :=
  if opcode &&& 0x000F = 0x0000 then
    Function.update V x (V y)
  else if opcode &&& 0x000F = 0x0001 then
    Function.update V x ((V x ||| V y) % 256)
  else if opcode &&& 0x000F = 0x0002 then
    Function.update V x ((V x &&& V y) % 256)
  else if opcode &&& 0x000F = 0x0003 then
    Function.update V x ((V x ^^^ V y) % 256)
  else if opcode &&& 0x000F = 0x0004 then
    let V1 := Function.update V 15 (if (V y : Int) > 0xFF - (V x : Int) then 1 else 0)
    Function.update V1 x ((V1 x + V1 y) % 256)
  else if opcode &&& 0x000F = 0x0005 then
    let V1 := Function.update V 15 (if V y > V x then 0 else 1)
    Function.update V1 x (u8 ((V1 x : Int) - (V1 y : Int)))
  else if opcode &&& 0x000F = 0x0006 then
    let V1 := Function.update V 15 ((V x &&& 0x1) % 256)
    Function.update V1 x ((V1 x >>> 1) % 256)
  else if opcode &&& 0x000F = 0x0007 then
    let V1 := Function.update V 15 (if V x > V y then 0 else 1)
    Function.update V1 x (u8 ((V1 y : Int) - (V1 x : Int)))
  else if opcode &&& 0x000F = 0x000E then
    let V1 := Function.update V 15 ((V x >>> 7) % 256)
    Function.update V1 x ((V1 x <<< 2) % 256)
  else V

/-- Case `0xE000` of `emulateCycle` (lines 176-188). -/
def execE (s : Chip8) (x : Nat) (opcode : Nat) : Option Chip8 :=
  if opcode &&& 0x000F = 0x000E then
    if s.V x < KEY_COUNT then
      some { s with pc := (s.pc + (if s.keyboard (s.V x) ≠ 0 then 4 else 2)) % 65536 }
    else none
  else if opcode &&& 0x000F = 0x0001 then
    if s.V x < KEY_COUNT then
      some { s with pc := (s.pc + (if ¬ s.keyboard (s.V x) ≠ 0 then 4 else 2)) % 65536 }
    else none
  else some s

/-- The function `Chip8::emulateCycle` (lines 49-213); `rnd` is the value returned by `rand()`. -/
def emulateCycle (rnd : Nat) (s : Chip8) : Option Chip8 :=
  match fetch s with
  | none => none
  | some opcode =>
    let x := ((opcode &&& 0x0F00) >>> 8) % 256
    let y := ((opcode &&& 0x00F0) >>> 4) % 256
    let n := (opcode &&& 0x000F) % 256
    let kk := (opcode &&& 0x00FF) % 256
    let nnn := (opcode &&& 0x0FFF) % 65536
    if opcode &&& 0xF000 = 0x0000 then
      exec0 s opcode
    else if opcode &&& 0xF000 = 0x1000 then
      some { s with pc := opcode &&& 0x0FFF }
    else if opcode &&& 0xF000 = 0x2000 then
      -- CALL: ++sp; stack[sp] = pc; pc = opcode & 0x0FFF;
      let sp1 := (s.sp + 1) % SP_MOD
      if sp1 < STACK_SIZE then
        some { s with sp := sp1, stack := Function.update s.stack sp1 s.pc,
                      pc := opcode &&& 0x0FFF }
      else none
    else if opcode &&& 0xF000 = 0x3000 then
      if s.V x = kk then some { s with pc := (s.pc + 4) % 65536 } else some s
    else if opcode &&& 0xF000 = 0x4000 then
      if s.V x ≠ kk then some { s with pc := (s.pc + 4) % 65536 } else some s
    else if opcode &&& 0xF000 = 0x5000 then
      if s.V x = s.V y then some { s with pc := (s.pc + 4) % 65536 } else some s
    else if opcode &&& 0xF000 = 0x6000 then
      some { s with V := Function.update s.V x kk, pc := (s.pc + 2) % 65536 }
    else if opcode &&& 0xF000 = 0x7000 then
      some { s with V := Function.update s.V x ((s.V x + kk) % 256),
                    pc := (s.pc + 2) % 65536 }
    else if opcode &&& 0xF000 = 0x8000 then
      some { s with V := exec8V s.V x y opcode, pc := (s.pc + 2) % 65536 }
    else if opcode &&& 0xF000 = 0x9000 then
      if s.V x ≠ s.V y then some { s with pc := (s.pc + 4) % 65536 } else some s
    else if opcode &&& 0xF000 = 0xA000 then
      some { s with I := nnn, pc := (s.pc + 2) % 65536 }
    else if opcode &&& 0xF000 = 0xB000 then
      some { s with pc := (nnn + s.V 0) % 65536 }
    else if opcode &&& 0xF000 = 0xC000 then
      some { s with V := Function.update s.V x (((rnd % 256) &&& kk) % 256),
                    pc := (s.pc + 2) % 65536 }
    else if opcode &&& 0xF000 = 0xD000 then
      -- the loop reads memory[i + I] for every i < n and stores nothing
      if ∀ i < n, i + s.I < MEMORY_SIZE then
        some { s with pc := (s.pc + 2) % 65536 }
      else none
    else if opcode &&& 0xF000 = 0xE000 then
      execE s x opcode
    else if opcode &&& 0xF000 = 0xF000 then
      -- every case of the inner switch on `opcode & 0x00FF`
      -- (0x07, 0x0A, 0x15, 0x18, 0x1E, 0x29, 0x33, 0x55, 0x65) is an empty `break`
      some s
    else some s

/-- Runs `k` consecutive cycles; cycle `j` draws `rnd j` from `rand()`. -/
def run (rnd : Nat → Nat) : Nat → Chip8 → Option Chip8
  | 0, s => some s
  | k + 1, s => (emulateCycle (rnd 0) s).bind (run (fun j => rnd (j + 1)) k)

/-- The array accesses of one cycle on the fetched word `opcode`, the fetch apart, are
inside their arrays: `stack[sp]` read by the return (line 71), `stack[sp]` written by
CALL after `++sp` (lines 80-81), `memory[i + I]` read by the DRW loop for every `i < n`
(line 172), `keyboard[V[x]]` read by the key skips (lines 181 and 185). -/
def accessesInBounds (s : Chip8) (opcode : Nat) : Prop :=
  (opcode &&& 0xF000 = 0x0000 → opcode &&& 0x000F = 0x000E → s.sp < STACK_SIZE) ∧
  (opcode &&& 0xF000 = 0x2000 → s.sp + 1 < STACK_SIZE) ∧
  (opcode &&& 0xF000 = 0xD000 → ∀ i < opcode &&& 0x000F, i + s.I < MEMORY_SIZE) ∧
  (opcode &&& 0xF000 = 0xE000 → opcode &&& 0x000F = 0x000E ∨ opcode &&& 0x000F = 0x0001 →
    s.V ((opcode &&& 0x0F00) >>> 8) < KEY_COUNT)

/-- The opcode word with first nibble `k` and remaining nibbles `x`, `y`, `n`. -/
def mkOp (k x y n : Nat) : Nat := 0x1000 * k + 0x100 * x + 0x10 * y + n

/-- The instruction forms of the opcode table of the specification (section 4.3): the
spec-side notion of a recognised opcode, against which the dispatch of `emulateCycle`
is compared. -/
def specRecognised (op : Nat) : Bool :=
  let k := op / 4096 % 16
  let n := op % 16
  let kk := op % 256
  op == 0x00E0 || op == 0x00EE ||
  k == 1 || k == 2 || k == 3 || k == 4 || (k == 5 && n == 0) || k == 6 || k == 7 ||
  (k == 8 && (n ≤ 7 || n == 0xE)) || (k == 9 && n == 0) ||
  k == 0xA || k == 0xB || k == 0xC || k == 0xD ||
  (k == 0xE && (kk == 0x9E || kk == 0xA1)) ||
  (k == 0xF && (kk == 0x07 || kk == 0x0A || kk == 0x15 || kk == 0x18 || kk == 0x1E ||
    kk == 0x29 || kk == 0x33 || kk == 0x55 || kk == 0x65))

/-! ## Concrete machines -/

/-- A machine with every field zero and `pc` at the program start. -/
def blank : Chip8 :=
  { memory := fun _ => 0, V := fun _ => 0, I := 0, pc := 0x200, stack := fun _ => 0, sp := 0,
    graphics := fun _ => 0, keyboard := fun _ => 0, delay_timer := 0, sound_timer := 0 }

/-- The machine `s` with the 16-bit word `w` stored big-endian at address `a`. -/
def withWord (s : Chip8) (a w : Nat) : Chip8 :=
  { s with memory := Function.update (Function.update s.memory a (w / 256)) (a + 1) (w % 256) }

/-- The machine `s` with register `V[i]` holding `v`. -/
def withReg (s : Chip8) (i v : Nat) : Chip8 :=
  { s with V := Function.update s.V i v }

/-- Machine with `ADD V0,VF` (0x80F4) at 0x200 with `V0 = 1`, `VF = 5`. -/
def addVfState : Chip8 := withReg (withReg (withWord blank 0x200 0x80F4) 0 1) 15 5

/-- Machine with `ADD V0,V1` (0x8014) at 0x200 with `V0 = 0xFF`, `V1 = 0x01`. -/
def addCarryState : Chip8 := withReg (withReg (withWord blank 0x200 0x8014) 0 0xFF) 1 0x01

/-- Machine with `SUB V0,V1` (0x8015) at 0x200 with `V0 = 0x01`, `V1 = 0x02`. -/
def subBorrowState : Chip8 := withReg (withReg (withWord blank 0x200 0x8015) 0 0x01) 1 0x02

/-- Machine with `SHL V0` (0x800E) at 0x200 with `V0 = 1`. -/
def shlState : Chip8 := withReg (withWord blank 0x200 0x800E) 0 1

/-- Machine with `SHR V0` (0x8006) at 0x200 with `V0 = 0x81`. -/
def shrState : Chip8 := withReg (withWord blank 0x200 0x8006) 0 0x81

/-- Machine with `ADD VF,V0` (0x8F04) at 0x200 with `V0 = 5`, `VF = 0`. -/
def addToVfState : Chip8 := withReg (withWord blank 0x200 0x8F04) 0 5

/-- Machine with `SUB VF,V0` (0x8F05) at 0x200 with `V0 = 2`, `VF = 7`. -/
def subToVfState : Chip8 := withReg (withReg (withWord blank 0x200 0x8F05) 0 2) 15 7

/-- Machine with `SHR VF` (0x8F06) at 0x200 with `VF = 1`. -/
def shrVfState : Chip8 := withReg (withWord blank 0x200 0x8F06) 15 1

/-- Machine with `SUBN VF,V0` (0x8F07) at 0x200 with `V0 = 9`, `VF = 3`. -/
def subnToVfState : Chip8 := withReg (withReg (withWord blank 0x200 0x8F07) 0 9) 15 3

/-- Machine with `SHL VF` (0x8F0E) at 0x200 with `VF = 0x81`. -/
def shlVfState : Chip8 := withReg (withWord blank 0x200 0x8F0E) 15 0x81

/-- Machine with `CALL 0x300` (0x2300) at 0x200 and `RET` (0x00EE) at 0x300, with an empty stack. -/
def callRetState : Chip8 := withWord (withWord blank 0x200 0x2300) 0x300 0x00EE

/-- Machine with `SE V0,0x01` (0x3001) at 0x200 with `V0 = 0`: the condition does not hold. -/
def seState : Chip8 := withWord blank 0x200 0x3001

/-- Machine with `SNE V0,0x00` (0x4000) at 0x200 with `V0 = 0`: the condition does not hold. -/
def sneState : Chip8 := withWord blank 0x200 0x4000

/-- Machine with `SE V0,V1` (0x5010) at 0x200 with `V0 = 0`, `V1 = 1`: the condition does not hold. -/
def seRegState : Chip8 := withReg (withWord blank 0x200 0x5010) 1 1

/-- Machine with `SNE V0,V1` (0x9010) at 0x200 with `V0 = V1 = 0`: the condition does not hold. -/
def sneRegState : Chip8 := withWord blank 0x200 0x9010

/-- Machine with `LD VA,0x42` (0x6A42) at 0x200. -/
def ldState : Chip8 := withWord blank 0x200 0x6A42

/-- An initialised machine (all-zero font table) with `CALL 0x200` (0x2200) loaded at
0x200: every cycle executes a CALL. -/
def callLoopState : Chip8 := withWord (initialise (fun _ => 0) blank) 0x200 0x2200

/-- The bytes 0x80 0x08 at 0x200: the word 0x8008, which is no row of the opcode table. -/
def unknown8State : Chip8 := withWord blank 0x200 0x8008

/-- The bytes 0x50 0x11 at 0x200: the word 0x5011, which is no row of the opcode table;
`V0 = V1 = 0`. -/
def unknown5State : Chip8 := withWord blank 0x200 0x5011

/-- A machine left over from a previous run: `V3 = 7`, one return address 0x0234 in
`stack[1]`, and the rest as in `blank`. -/
def staleState : Chip8 :=
  { withReg blank 3 7 with stack := Function.update (fun _ => 0) 1 0x0234, sp := 1 }

/-- Machine with `DRW V0,V0,1` (0xD001) at 0x200, `I = 0x300`, the sprite row 0x80 at
0x300, `V0 = 0` and a dark display. -/
def drwState : Chip8 := { withWord (withWord blank 0x200 0xD001) 0x300 0x8000 with I := 0x300 }

/-- Machine with `LD B,V0` (0xF033) at 0x200, `I = 0x300` and `V0 = 123`. -/
def bcdState : Chip8 := { withReg (withWord blank 0x200 0xF033) 0 123 with I := 0x300 }

/-- Machine with `SKP V0` (0xE09E) at 0x200, `V0 = 5` and key 5 pressed. -/
def skpState : Chip8 :=
  { withReg (withWord blank 0x200 0xE09E) 0 5 with keyboard := Function.update (fun _ => 0) 5 1 }

/-- Machine with `SKNP V0` (0xE0A1) at 0x200, `V0 = 5` and key 5 pressed. -/
def sknpState : Chip8 :=
  { withReg (withWord blank 0x200 0xE0A1) 0 5 with keyboard := Function.update (fun _ => 0) 5 1 }

/-- Machine with `pc = 0xFFE` and `LD V0,0x00` (0x6000) in the last two bytes of memory. -/
def lastWordState : Chip8 := { withWord blank 0xFFE 0x6000 with pc := 0xFFE }

/-- Machine with `pc = 0xFFC`, `SE V0,0x00` (0x3000) at 0xFFC and `V0 = 0`: the skip is
taken. -/
def skipNearEndState : Chip8 := { withWord blank 0xFFC 0x3000 with pc := 0xFFC }

/-- Machine with `JP 0xFFF` (0x1FFF) at 0x200. -/
def jumpToLastByteState : Chip8 := withWord blank 0x200 0x1FFF

/-- Machine with the word 0x0120 at 0x200 and pixel 0 of the display lit. -/
def sysWordState : Chip8 :=
  { withWord blank 0x200 0x0120 with graphics := Function.update (fun _ => 0) 0 1 }

/-- Machine with zeroed memory (the word 0x0000 at 0x200) and pixel 0 of the display
lit. -/
def zeroWordState : Chip8 := { blank with graphics := Function.update (fun _ => 0) 0 1 }

/-- Machine with `CALL 0x200` (0x2200) at 0x200 and `sp = 15`: the CALL stores at
`stack[16]`. -/
def callAtTopState : Chip8 := { withWord blank 0x200 0x2200 with sp := 15 }

/-- Machine with `RET` (0x00EE) at 0x200 and `sp = 16`: the return reads `stack[16]`. -/
def retOutsideState : Chip8 := { withWord blank 0x200 0x00EE with sp := 16 }

/-- Machine with `DRW V0,V0,2` (0xD002) at 0x200 and `I = 0xFFF`: the second sprite row
is read at `memory[0x1000]`. -/
def drwOutsideState : Chip8 := { withWord blank 0x200 0xD002 with I := 0xFFF }

/-- Machine with `SKP V0` (0xE09E) at 0x200 and `V0 = 16`: the skip reads
`keyboard[16]`. -/
def skpOutsideState : Chip8 := withReg (withWord blank 0x200 0xE09E) 0 16

/-- Machine with the word 0xFFFF at 0x200 and `VF = 200`. -/
def unknownFBigVfState : Chip8 := withReg (withWord blank 0x200 0xFFFF) 15 200

/-- Machine with the word 0x012E at 0x200 (no row of the opcode table, executed as a
return), `sp = 1` and `stack[1] = 0x0400`; `V2 = 9`. -/
def sysReturnWordState : Chip8 :=
  { withReg (withWord blank 0x200 0x012E) 2 9 with
    stack := Function.update (fun _ => 0) 1 0x0400, sp := 1 }

/-- Machine with the word 0xE0AE at 0x200 (no row of the opcode table, executed as a key
skip) and `V0 = 3`. -/
def unknownSkipState : Chip8 := withReg (withWord blank 0x200 0xE0AE) 0 3

/-- Machine with `LD V1,K` (0xF10A) at 0x200. -/
def keyWaitState : Chip8 := withWord blank 0x200 0xF10A

/-! ## Decoding lemmas -/

theorem and_F000 (op : Nat) : op &&& 0xF000 = (op / 4096 % 16) * 4096 := by
  apply Nat.eq_of_testBit_eq
  intro i
  have h1 : (0xF000 : Nat) = (2 ^ 4 - 1) <<< 12 := by decide
  have h2 : (op / 4096 % 16) * 4096 = ((op >>> 12) % 2 ^ 4) <<< 12 := by
    rw [Nat.shiftLeft_eq, Nat.shiftRight_eq_div_pow]
    norm_num
  rw [h2, Nat.testBit_and, h1]
  simp only [Nat.testBit_shiftLeft, Nat.testBit_two_pow_sub_one, Nat.testBit_mod_two_pow,
    Nat.testBit_shiftRight]
  by_cases h : 12 ≤ i
  · have : 12 + (i - 12) = i := by omega
    simp [h, this, Bool.and_comm]
  · simp [h]

theorem and_0F00_shift (op : Nat) : (op &&& 0x0F00) >>> 8 = op / 256 % 16 := by
  apply Nat.eq_of_testBit_eq
  intro i
  have h1 : (0x0F00 : Nat) = (2 ^ 4 - 1) <<< 8 := by decide
  have h2 : op / 256 % 16 = (op >>> 8) % 2 ^ 4 := by
    rw [Nat.shiftRight_eq_div_pow]
    norm_num
  rw [h2, h1]
  simp only [Nat.testBit_shiftRight, Nat.testBit_and, Nat.testBit_shiftLeft,
    Nat.testBit_two_pow_sub_one, Nat.testBit_mod_two_pow]
  simp [Bool.and_comm]

theorem and_00F0_shift (op : Nat) : (op &&& 0x00F0) >>> 4 = op / 16 % 16 := by
  apply Nat.eq_of_testBit_eq
  intro i
  have h1 : (0x00F0 : Nat) = (2 ^ 4 - 1) <<< 4 := by decide
  have h2 : op / 16 % 16 = (op >>> 4) % 2 ^ 4 := by
    rw [Nat.shiftRight_eq_div_pow]
    norm_num
  rw [h2, h1]
  simp only [Nat.testBit_shiftRight, Nat.testBit_and, Nat.testBit_shiftLeft,
    Nat.testBit_two_pow_sub_one, Nat.testBit_mod_two_pow]
  simp [Bool.and_comm]

theorem and_000F (op : Nat) : op &&& 0x000F = op % 16 :=
  Nat.and_pow_two_sub_one_eq_mod op 4

theorem and_00FF (op : Nat) : op &&& 0x00FF = op % 256 :=
  Nat.and_pow_two_sub_one_eq_mod op 8

theorem and_0FFF (op : Nat) : op &&& 0x0FFF = op % 4096 :=
  Nat.and_pow_two_sub_one_eq_mod op 12

/-- The decoded fields of an opcode word built from four nibbles. -/
theorem decode_mkOp (k x y n : Nat) (hk : k < 16) (hx : x < 16) (hy : y < 16) (hn : n < 16) :
    mkOp k x y n &&& 0xF000 = 0x1000 * k ∧
    ((mkOp k x y n &&& 0x0F00) >>> 8) % 256 = x ∧
    ((mkOp k x y n &&& 0x00F0) >>> 4) % 256 = y ∧
    mkOp k x y n &&& 0x000F = n ∧
    mkOp k x y n &&& 0x00FF = 0x10 * y + n ∧
    mkOp k x y n &&& 0x0FFF = 0x100 * x + 0x10 * y + n := by
  rw [and_F000, and_0F00_shift, and_00F0_shift, and_000F, and_00FF, and_0FFF]
  unfold mkOp
  omega

/-! ## General facts about one cycle -/

theorem fetch_bound {s : Chip8} {op : Nat} (h : fetch s = some op) : s.pc + 1 < 4096 := by
  unfold fetch MEMORY_SIZE at h
  by_contra hc
  simp [hc] at h

theorem u8_sub (a b : Nat) : ((u8 ((a : Int) - (b : Int)) : Nat) : Int) = ((a : Int) - b) % 256 := by
  unfold u8
  exact Int.toNat_of_nonneg (Int.emod_nonneg _ (by norm_num))

/-- Every opcode `8xyN` completes: the register file becomes `exec8V` of the old one and
`pc` advances by 2. -/
theorem emulateCycle_8 (rnd : Nat) (s : Chip8) (x y n : Nat) (hx : x < 16) (hy : y < 16)
    (hn : n < 16) (hop : fetch s = some (mkOp 8 x y n)) :
    emulateCycle rnd s =
      some { s with V := exec8V s.V x y (mkOp 8 x y n), pc := s.pc + 2 } := by
  have hpc := fetch_bound hop
  obtain ⟨h1, h2, h3, -, -, -⟩ := decode_mkOp 8 x y n (by omega) hx hy hn
  have hmod : (s.pc + 2) % 65536 = s.pc + 2 := Nat.mod_eq_of_lt (by omega)
  simp only [emulateCycle, hop, h1, h2, h3, hmod]
  simp

/-! ## C1: ADD Vx,Vy -/

/-- ADD Vx,Vy with neither operand VF: the sum modulo 256 lands in `V[x]`, the carry in
`VF`, and `pc` advances by 2. -/
theorem add_reg_of_ne_vf (rnd : Nat) (s : Chip8) (x y : Nat) (hx : x < 15) (hy : y < 15)
    (hop : fetch s = some (mkOp 8 x y 4)) :
    ∃ s', emulateCycle rnd s = some s' ∧
      s'.V x = (s.V x + s.V y) % 256 ∧
      s'.V 15 = (if s.V x + s.V y > 255 then 1 else 0) ∧
      s'.pc = s.pc + 2 := by
  obtain ⟨-, -, -, h4, -, -⟩ := decode_mkOp 8 x y 4 (by omega) (by omega) (by omega) (by omega)
  have hx15 : ¬ 15 = x := by omega
  have hy15 : ¬ y = 15 := by omega
  have hx15' : ¬ x = 15 := by omega
  refine ⟨_, emulateCycle_8 rnd s x y 4 (by omega) (by omega) (by omega) hop, ?_, ?_, rfl⟩
  · simp [exec8V, h4, Function.update, hx15', hy15]
  · simp only [exec8V, h4, Function.update]
    simp [hx15]
    split_ifs <;> omega

/-- The carry example of the specification: `V0 = 0xFF`, `V1 = 0x01`, opcode 0x8014 gives
`V0 = 0x00`, `VF = 1`. -/
theorem add_carry_example :
    ∃ s', emulateCycle 0 addCarryState = some s' ∧ s'.V 0 = 0x00 ∧ s'.V 15 = 1 ∧
      s'.pc = 0x202 := by
  obtain ⟨s', h, hv, hf, hp⟩ :=
    add_reg_of_ne_vf 0 addCarryState 0 1 (by decide) (by decide) (by decide)
  exact ⟨s', h, hv, hf, hp⟩

/-- C1 (code defect): `ADD V0,VF` with `V0 = 1`, `VF = 5` leaves `V0 = 1`, not
`(1 + 5) mod 256 = 6`: the carry is stored in `VF` before `VF` is read as the second
operand, so the sum uses the carry (0) in place of the old `VF`. -/
theorem C1_add_reads_overwritten_vf :
    fetch addVfState = some (mkOp 8 0 15 4) ∧ addVfState.V 0 = 1 ∧ addVfState.V 15 = 5 ∧
    (emulateCycle 0 addVfState).map (fun s => (s.V 0, s.V 15, s.pc)) = some (1, 0, 0x202) := by
  decide

/-! ## C2: SUB Vx,Vy -/

/-- C2: for x, y in 0..14, one cycle of 8xy5 leaves `V[x] = (a - b) mod 256` and
`VF = 1` if `a >= b` else `0`, leaves every register other than `V[x]` and `VF`
unchanged, and advances `pc` by 2. -/
theorem C2_sub_reg (rnd : Nat) (s : Chip8) (x y : Nat) (hx : x < 15) (hy : y < 15)
    (hop : fetch s = some (mkOp 8 x y 5)) :
    ∃ s', emulateCycle rnd s = some s' ∧
      (s'.V x : Int) = ((s.V x : Int) - (s.V y : Int)) % 256 ∧
      s'.V 15 = (if s.V x ≥ s.V y then 1 else 0) ∧
      (∀ i, i ≠ x → i ≠ 15 → s'.V i = s.V i) ∧
      s'.I = s.I ∧
      s'.pc = s.pc + 2 := by
  obtain ⟨-, -, -, h4, -, -⟩ := decode_mkOp 8 x y 5 (by omega) (by omega) (by omega) (by omega)
  have hx15 : ¬ 15 = x := by omega
  have hy15 : ¬ y = 15 := by omega
  have hx15' : ¬ x = 15 := by omega
  refine ⟨_, emulateCycle_8 rnd s x y 5 (by omega) (by omega) (by omega) hop, ?_, ?_, ?_,
    rfl, rfl⟩
  · simp [exec8V, h4, Function.update, hx15', hy15, u8_sub]
  · simp only [exec8V, h4, Function.update]
    simp [hx15]
    split_ifs <;> omega
  · intro i hi hi2
    simp [exec8V, h4, Function.update, hi, hi2]

/-- C2 witness: `V0 = 0x01`, `V1 = 0x02`, opcode 0x8015 gives `V0 = 0xFF`, `VF = 0`. -/
theorem C2_sub_reg_witness :
    (0 < 15 ∧ 1 < 15 ∧ fetch subBorrowState = some (mkOp 8 0 1 5)) ∧
    ∃ s', emulateCycle 0 subBorrowState = some s' ∧ s'.V 0 = 0xFF ∧ s'.V 15 = 0 ∧
      s'.pc = 0x202 := by
  refine ⟨by decide, ?_⟩
  obtain ⟨s', h, hv, hf, -, -, hp⟩ :=
    C2_sub_reg 0 subBorrowState 0 1 (by decide) (by decide) (by decide)
  have h0 : subBorrowState.V 0 = 1 := by decide
  have h1 : subBorrowState.V 1 = 2 := by decide
  have hpc : subBorrowState.pc = 0x200 := rfl
  rw [h0, h1] at hv hf
  refine ⟨s', h, ?_, ?_, ?_⟩
  · norm_num at hv
    exact_mod_cast hv
  · simpa using hf
  · rw [hp, hpc]

/-! ## C3: SHL Vx -/

/-- C3 (code defect): `SHL V0` with `V0 = 1` leaves `V0 = 4`, not `(1 << 1) mod 256 = 2`:
the register is shifted left by two places. -/
theorem C3_shl_shifts_by_two :
    fetch shlState = some (mkOp 8 0 0 0xE) ∧ shlState.V 0 = 1 ∧
    (emulateCycle 0 shlState).map (fun s => (s.V 0, s.V 15, s.pc)) = some (4, 0, 0x202) := by
  decide

/-! ## C4: SHR Vx -/

/-- C4: for x other than 0xF, one cycle of 8xy6 leaves `VF = a & 1` and `V[x] = a >> 1`
and advances `pc` by 2; replacing the value of `V[y]` (y other than x) by any `v`
changes neither result. -/
theorem C4_shr_reg (rnd : Nat) (s : Chip8) (x y : Nat) (hx : x < 15) (hy : y < 16)
    (ha : s.V x < 256) (hop : fetch s = some (mkOp 8 x y 6)) :
    ∃ s', emulateCycle rnd s = some s' ∧
      s'.V 15 = s.V x &&& 1 ∧
      s'.V x = s.V x >>> 1 ∧
      s'.pc = s.pc + 2 ∧
      ∀ v, y ≠ x →
        ∃ t', emulateCycle rnd { s with V := Function.update s.V y v } = some t' ∧
          t'.V x = s'.V x ∧ t'.V 15 = s'.V 15 := by
  obtain ⟨-, -, -, h4, -, -⟩ := decode_mkOp 8 x y 6 (by omega) (by omega) (by omega) (by omega)
  have hx15 : ¬ 15 = x := by omega
  have hx15' : ¬ x = 15 := by omega
  have hbit : s.V x &&& 1 < 256 := by
    rw [show (1 : Nat) = 2 ^ 1 - 1 from rfl, Nat.and_pow_two_sub_one_eq_mod]
    omega
  have hshr : s.V x >>> 1 < 256 := by
    rw [Nat.shiftRight_eq_div_pow]
    omega
  have hV15 : ∀ W : Nat → Nat, W x = s.V x → exec8V W x y (mkOp 8 x y 6) 15 = s.V x &&& 1 := by
    intro W hW
    simp only [exec8V, h4, Function.update]
    simp [hx15, hW]
    omega
  have hVx : ∀ W : Nat → Nat, W x = s.V x → exec8V W x y (mkOp 8 x y 6) x = s.V x >>> 1 := by
    intro W hW
    simp only [exec8V, h4, Function.update]
    simp [hx15', hW, Nat.mod_eq_of_lt hshr]
  refine ⟨_, emulateCycle_8 rnd s x y 6 (by omega) (by omega) (by omega) hop,
    hV15 s.V rfl, hVx s.V rfl, rfl, ?_⟩
  intro v hyx
  have hW : Function.update s.V y v x = s.V x := by
    simp [Function.update, Ne.symm hyx]
  refine ⟨_, emulateCycle_8 rnd _ x y 6 (by omega) (by omega) (by omega) hop, ?_, ?_⟩
  · show exec8V _ x y _ x = exec8V s.V x y _ x
    rw [hVx _ hW, hVx s.V rfl]
  · show exec8V _ x y _ 15 = exec8V s.V x y _ 15
    rw [hV15 _ hW, hV15 s.V rfl]

/-- C4 witness: `V0 = 0x81`, opcode 0x8006 gives `V0 = 0x40`, `VF = 1`. -/
theorem C4_shr_reg_witness :
    (0 < 15 ∧ 0 < 16 ∧ shrState.V 0 < 256 ∧ fetch shrState = some (mkOp 8 0 0 6)) ∧
    ∃ s', emulateCycle 0 shrState = some s' ∧ s'.V 15 = 1 ∧ s'.V 0 = 0x40 ∧
      s'.pc = 0x202 := by
  refine ⟨by decide, ?_⟩
  obtain ⟨s', h, hf, hv, hp, -⟩ :=
    C4_shr_reg 0 shrState 0 0 (by decide) (by decide) (by decide) (by decide)
  have h0 : shrState.V 0 = 0x81 := by decide
  have hpc : shrState.pc = 0x200 := rfl
  rw [h0] at hv hf
  exact ⟨s', h, hf, hv, by rw [hp, hpc]⟩

/-! ## C5: flag opcodes with destination VF -/

/-- C5 (code defect): with destination VF the flag is stored first and then overwritten
by the result.  `ADD VF,V0` (`V0 = 5`, `VF = 0`, carry 0) leaves `VF = 5`;
`SUB VF,V0` (`VF = 7`, `V0 = 2`, not-borrow 1) leaves `VF = 255`;
`SHR VF` (`VF = 1`, shifted-out bit 1) leaves `VF = 0`;
`SUBN VF,V0` (`V0 = 9`, `VF = 3`, not-borrow 1) leaves `VF = 8`;
`SHL VF` (`VF = 0x81`, shifted-out bit 1) leaves `VF = 4`. -/
theorem C5_flag_overwritten_by_result :
    (fetch addToVfState = some (mkOp 8 15 0 4) ∧
      (emulateCycle 0 addToVfState).map (fun s => s.V 15) = some 5) ∧
    (fetch subToVfState = some (mkOp 8 15 0 5) ∧
      (emulateCycle 0 subToVfState).map (fun s => s.V 15) = some 255) ∧
    (fetch shrVfState = some (mkOp 8 15 0 6) ∧
      (emulateCycle 0 shrVfState).map (fun s => s.V 15) = some 0) ∧
    (fetch subnToVfState = some (mkOp 8 15 0 7) ∧
      (emulateCycle 0 subnToVfState).map (fun s => s.V 15) = some 8) ∧
    (fetch shlVfState = some (mkOp 8 15 0 0xE) ∧
      (emulateCycle 0 shlVfState).map (fun s => s.V 15) = some 4) := by
  decide

/-! ## C6: CALL then RET -/

theorem fetch_congr {s t : Chip8} (hm : s.memory = t.memory) (hp : s.pc = t.pc) :
    fetch s = fetch t := by
  simp [fetch, hm, hp]

/-- One cycle of `CALL nnn` below the last stack slot: `sp` is incremented, the address
of the CALL itself is stored in `stack[sp]`, and `pc` becomes `nnn`. -/
theorem emulateCycle_call (rnd : Nat) (s : Chip8) (nnn : Nat) (hnnn : nnn < 4096)
    (hsp : s.sp + 1 < STACK_SIZE) (hop : fetch s = some (0x2000 + nnn)) :
    emulateCycle rnd s =
      some { s with sp := s.sp + 1, stack := Function.update s.stack (s.sp + 1) s.pc,
                    pc := nnn } := by
  have h1 : (0x2000 + nnn) &&& 0xF000 = 0x2000 := by rw [and_F000]; omega
  have h2 : (0x2000 + nnn) &&& 0x0FFF = nnn := by rw [and_0FFF]; omega
  unfold STACK_SIZE at hsp
  have h3 : (s.sp + 1) % SP_MOD = s.sp + 1 := Nat.mod_eq_of_lt (by unfold SP_MOD; omega)
  simp only [emulateCycle, hop, h1, h2, h3]
  simp [STACK_SIZE, hsp]

/-- One cycle of `RET` with `sp` inside the stack: `pc` becomes `stack[sp]` and `sp` is
decremented. -/
theorem emulateCycle_ret (rnd : Nat) (s : Chip8) (hsp : s.sp < STACK_SIZE) (hpos : 0 < s.sp)
    (hop : fetch s = some 0x00EE) :
    emulateCycle rnd s = some { s with pc := s.stack s.sp, sp := s.sp - 1 } := by
  have h1 : (0x00EE : Nat) &&& 0xF000 = 0 := by decide
  have h2 : (0x00EE : Nat) &&& 0x000F = 0xE := by decide
  have h3 : (s.sp + SP_MOD - 1) % SP_MOD = s.sp - 1 := by
    unfold STACK_SIZE at hsp
    unfold SP_MOD
    omega
  simp only [emulateCycle, hop, h1, exec0, h2, h3]
  simp [hsp]

/-- CALL followed by RET comes back to the CALL itself: after the two cycles `pc` is the
address `p` of the CALL (not `p + 2`) and `sp` has its old value. -/
theorem call_ret_returns_to_call (rnd : Nat → Nat) (s : Chip8) (nnn : Nat) (hnnn : nnn < 4096)
    (hsp : s.sp + 1 < STACK_SIZE) (hcall : fetch s = some (0x2000 + nnn))
    (hret : fetch { s with pc := nnn } = some 0x00EE) :
    ∃ s', run rnd 2 s = some s' ∧ s'.pc = s.pc ∧ s'.sp = s.sp := by
  have h1 := emulateCycle_call (rnd 0) s nnn hnnn hsp hcall
  have h2 := emulateCycle_ret (rnd 1)
    { s with sp := s.sp + 1, stack := Function.update s.stack (s.sp + 1) s.pc, pc := nnn }
    hsp (Nat.succ_pos _) (by rw [← hret]; exact fetch_congr rfl rfl)
  have hrun : run rnd 2 s =
      some { s with stack := Function.update s.stack (s.sp + 1) s.pc } := by
    simp [run, h1, h2]
  exact ⟨_, hrun, rfl, rfl⟩

/-- C6 (code defect): with `CALL 0x300` at `pc = 0x200`, `RET` at 0x300 and `sp = 0`, two
cycles leave `pc = 0x200`, the address of the CALL itself, not `0x202`; `sp` is back
at 0.  CALL stores `pc` (not `pc + 2`) and RET does not advance past it. -/
theorem C6_ret_returns_to_call_itself :
    fetch callRetState = some 0x2300 ∧
    fetch { callRetState with pc := 0x300 } = some 0x00EE ∧
    callRetState.pc = 0x200 ∧ callRetState.sp = 0 ∧
    (emulateCycle 0 callRetState).map (fun s => (s.pc, s.sp)) = some (0x300, 1) ∧
    (run (fun _ => 0) 2 callRetState).map (fun s => (s.pc, s.sp)) = some (0x200, 0) := by
  decide

/-! ## C7: conditional skips -/

/-- C7 (code defect): when the condition of a skip opcode does not hold, `pc` does not
move.  For `SE V0,1` (`V0 = 0`), `SNE V0,0` (`V0 = 0`), `SE V0,V1` (`V0 = 0`, `V1 = 1`)
and `SNE V0,V1` (`V0 = V1 = 0`) at `pc = 0x200`, one cycle leaves `pc = 0x200`, not
`0x202`. -/
theorem C7_skip_not_taken_keeps_pc :
    (fetch seState = some 0x3001 ∧ seState.pc = 0x200 ∧
      (emulateCycle 0 seState).map (fun s => s.pc) = some 0x200) ∧
    (fetch sneState = some 0x4000 ∧ sneState.pc = 0x200 ∧
      (emulateCycle 0 sneState).map (fun s => s.pc) = some 0x200) ∧
    (fetch seRegState = some 0x5010 ∧ seRegState.pc = 0x200 ∧
      (emulateCycle 0 seRegState).map (fun s => s.pc) = some 0x200) ∧
    (fetch sneRegState = some 0x9010 ∧ sneRegState.pc = 0x200 ∧
      (emulateCycle 0 sneRegState).map (fun s => s.pc) = some 0x200) := by
  decide

/-! ## C8: LD Vx,kk -/

/-- C8: one cycle of 6xkk leaves `V[x] = kk`, leaves every other register, `I`, `sp`,
the stack, memory, display and keypad (and both timers) unchanged, and advances `pc`
by exactly 2. -/
theorem C8_ld_byte (rnd : Nat) (s : Chip8) (x kk : Nat) (hx : x < 16) (hkk : kk < 256)
    (hop : fetch s = some (0x6000 + 0x100 * x + kk)) :
    ∃ s', emulateCycle rnd s = some s' ∧
      s'.V x = kk ∧ (∀ i, i ≠ x → s'.V i = s.V i) ∧
      s'.I = s.I ∧ s'.sp = s.sp ∧ s'.stack = s.stack ∧ s'.memory = s.memory ∧
      s'.graphics = s.graphics ∧ s'.keyboard = s.keyboard ∧
      s'.delay_timer = s.delay_timer ∧ s'.sound_timer = s.sound_timer ∧
      s'.pc = s.pc + 2 := by
  have hpc := fetch_bound hop
  have h1 : (0x6000 + 0x100 * x + kk) &&& 0xF000 = 0x6000 := by rw [and_F000]; omega
  have h2 : ((0x6000 + 0x100 * x + kk) &&& 0x0F00) >>> 8 % 256 = x := by
    rw [and_0F00_shift]; omega
  have h3 : ((0x6000 + 0x100 * x + kk) &&& 0x00FF) % 256 = kk := by rw [and_00FF]; omega
  have hmod : (s.pc + 2) % 65536 = s.pc + 2 := Nat.mod_eq_of_lt (by omega)
  refine ⟨{ s with V := Function.update s.V x kk, pc := s.pc + 2 }, ?_, ?_, ?_,
    rfl, rfl, rfl, rfl, rfl, rfl, rfl, rfl, rfl⟩
  · simp only [emulateCycle, hop, h1, h2, h3, hmod]
    simp
  · simp
  · intro i hi
    simp [Function.update, hi]

/-- C8 witness: `LD VA,0x42` at `pc = 0x200` leaves `VA = 0x42` and `pc = 0x202`. -/
theorem C8_ld_byte_witness :
    (10 < 16 ∧ 0x42 < 256 ∧ fetch ldState = some (0x6000 + 0x100 * 10 + 0x42)) ∧
    ∃ s', emulateCycle 0 ldState = some s' ∧ s'.V 10 = 0x42 ∧ s'.pc = 0x202 := by
  refine ⟨by decide, ?_⟩
  obtain ⟨s', h, hv, -, -, -, -, -, -, -, -, -, hp⟩ :=
    C8_ld_byte 0 ldState 10 0x42 (by decide) (by decide) (by decide)
  exact ⟨s', h, hv, hp⟩

/-! ## C9: CALL and the stack depth -/

theorem run_calls (k : Nat) : ∀ (rnd : Nat → Nat) (t : Nat → Nat) (s : Chip8),
    s.sp + k < STACK_SIZE → s.pc = t 0 →
    (∀ j < k, t (j + 1) < 4096 ∧ fetch { s with pc := t j } = some (0x2000 + t (j + 1))) →
    ∃ s', run rnd k s = some s' ∧ s'.sp = s.sp + k ∧ s'.pc = t k ∧
      (∀ j < k, s'.stack (s.sp + j + 1) = t j) ∧
      (∀ i ≤ s.sp, s'.stack i = s.stack i) ∧ s'.memory = s.memory := by
  induction k with
  | zero =>
    intro rnd t s _ hpc _
    exact ⟨s, rfl, rfl, hpc, by intro j hj; omega, fun _ _ => rfl, rfl⟩
  | succ k ih =>
    intro rnd t s hsp hpc hcalls
    obtain ⟨ht1, hf0⟩ := hcalls 0 (by omega)
    have hop : fetch s = some (0x2000 + t 1) := by
      rw [← hf0]; exact fetch_congr rfl hpc
    have hstep := emulateCycle_call (rnd 0) s (t 1) ht1 (by omega) hop
    obtain ⟨s', hrun, hsp', hpc', hst, hfr, hmem⟩ :=
      ih (fun j => rnd (j + 1)) (fun j => t (j + 1))
        { s with sp := s.sp + 1, stack := Function.update s.stack (s.sp + 1) s.pc, pc := t 1 }
        (by show s.sp + 1 + k < STACK_SIZE; omega) rfl
        (by
          intro j hj
          obtain ⟨hb, hf⟩ := hcalls (j + 1) (by omega)
          exact ⟨hb, by rw [← hf]; exact fetch_congr rfl rfl⟩)
    refine ⟨s', ?_, ?_, hpc', ?_, ?_, hmem⟩
    · simp only [run, hstep, Option.bind]
      exact hrun
    · rw [hsp']; show s.sp + 1 + k = _; omega
    · intro j hj
      rcases Nat.eq_zero_or_pos j with h0 | hpos
      · subst h0
        have := hfr (s.sp + 1) (Nat.le_refl _)
        rw [this, hpc]
        simp
      · obtain ⟨j', rfl⟩ : ∃ j', j = j' + 1 := ⟨j - 1, by omega⟩
        have := hst j' (by omega)
        have e : s.sp + (j' + 1) + 1 = s.sp + 1 + j' + 1 := by omega
        rw [e]
        exact this
    · intro i hi
      have := hfr i (by show i ≤ s.sp + 1; omega)
      rw [this]
      simp [Function.update]
      intro h; omega

/-- C9 (counterexample): from an initialised machine running `CALL 0x200` at 0x200, the
first 15 CALLs complete and leave `sp = 15`; the 16th CALL has no defined outcome (it
stores at `stack[16]`, past the 16 slots), so 16 consecutive CALLs do not succeed. -/
theorem C9_sixteenth_call_out_of_stack :
    callLoopState.sp = 0 ∧ fetch callLoopState = some 0x2200 ∧
    (run (fun _ => 0) 15 callLoopState).map (fun s => (s.sp, s.pc)) = some (15, 0x200) ∧
    (run (fun _ => 0) 16 callLoopState).isSome = false := by
  decide

/-- C9 (amended): `k` consecutive CALLs (the CALL at `t j` targets `t (j + 1)`) started at
depth `sp` with `sp + k <= 15` all complete: for every `j <= k` the machine after the
first `j` of them exists, its `sp` has grown by `j` and its `pc` is the `j`-th target.
With `sp = 0` (an initialised machine) this covers the first 15 CALLs, after the
`j`-th of which `sp = j`. -/
theorem C9_calls_up_to_depth_15 (rnd : Nat → Nat) (t : Nat → Nat) (s : Chip8) (k : Nat)
    (hdepth : s.sp + k ≤ 15) (hpc : s.pc = t 0)
    (hcalls : ∀ j < k, t (j + 1) < 4096 ∧
      fetch { s with pc := t j } = some (0x2000 + t (j + 1))) :
    ∀ j, j ≤ k → ∃ sj, run rnd j s = some sj ∧ sj.sp = s.sp + j ∧ sj.pc = t j := by
  intro j hj
  obtain ⟨sj, h1, h2, h3, -⟩ :=
    run_calls j rnd t s (by unfold STACK_SIZE; omega) hpc
      (fun i hi => hcalls i (Nat.lt_of_lt_of_le hi hj))
  exact ⟨sj, h1, h2, h3⟩

/-- C9 witness: the initialised machine running `CALL 0x200` at 0x200 completes 15 CALLs;
after the first `sp = 1` and after the 15th `sp = 15`. -/
theorem C9_calls_up_to_depth_15_witness :
    (callLoopState.sp + 15 ≤ 15 ∧ callLoopState.pc = 0x200 ∧
      fetch { callLoopState with pc := 0x200 } = some (0x2000 + 0x200)) ∧
    (∃ s1, run (fun _ => 0) 1 callLoopState = some s1 ∧ s1.sp = 1 ∧ s1.pc = 0x200) ∧
    ∃ s15, run (fun _ => 0) 15 callLoopState = some s15 ∧ s15.sp = 15 ∧ s15.pc = 0x200 := by
  have hall := C9_calls_up_to_depth_15 (fun _ => 0) (fun _ => 0x200) callLoopState 15
    (by decide) rfl
    (fun _ _ =>
      show (0x200 : Nat) < 4096 ∧
        fetch { callLoopState with pc := 0x200 } = some (0x2000 + 0x200) from by decide)
  refine ⟨by decide, ?_, ?_⟩
  · obtain ⟨s1, h, hsp, hp⟩ := hall 1 (by decide)
    exact ⟨s1, h, by rw [hsp]; rfl, hp⟩
  · obtain ⟨s15, h, hsp, hp⟩ := hall 15 (by decide)
    exact ⟨s15, h, by rw [hsp]; rfl, hp⟩

/-! ## C10: words outside the opcode table -/

/-- C10 (counterexample): the word 0x8008 is no row of the opcode table, yet one cycle
completes and moves `pc` from 0x200 to 0x202; the word 0x5011 is no row either and is
executed as `SE V0,V1`, moving `pc` to 0x204. -/
theorem C10_unknown_opcode_moves_pc :
    (fetch unknown8State = some 0x8008 ∧ specRecognised 0x8008 = false ∧
      unknown8State.pc = 0x200 ∧
      (emulateCycle 0 unknown8State).map (fun s => s.pc) = some 0x202) ∧
    (fetch unknown5State = some 0x5011 ∧ specRecognised 0x5011 = false ∧
      unknown5State.pc = 0x200 ∧
      (emulateCycle 0 unknown5State).map (fun s => s.pc) = some 0x204) := by
  decide

/-- C10 (amended): for a word `op` at `pc` that is no row of the opcode table, one cycle
completes (nothing is reported) and leaves all the V registers unchanged, provided
`sp < 16` when the word has first nibble 0 and last nibble 0xE (it is executed as a
return) and `V[x] < 16` when it has first nibble 0xE and last nibble 0xE or 1 (it is
executed as a key skip).  The whole machine state, `pc` included, is unchanged when
the first nibble is 0xF (as for 0xFFFF), when the first nibble is 0 and the last is
neither 0 nor 0xE, and when the first nibble is 0xE and the last is neither 0xE
nor 1. -/
theorem C10_unknown_opcode_keeps_registers (rnd : Nat) (s : Chip8) (op : Nat)
    (hop : fetch s = some op) (hun : specRecognised op = false)
    (hsp : op &&& 0xF000 = 0x0000 → op &&& 0x000F = 0x000E → s.sp < STACK_SIZE)
    (hkey : op &&& 0xF000 = 0xE000 → op &&& 0x000F = 0x000E ∨ op &&& 0x000F = 0x0001 →
      s.V ((op &&& 0x0F00) >>> 8) < KEY_COUNT) :
    ∃ s', emulateCycle rnd s = some s' ∧ (∀ i, s'.V i = s.V i) ∧
      (op &&& 0xF000 = 0xF000 ∨
        (op &&& 0xF000 = 0x0000 ∧ op &&& 0x000F ≠ 0x0000 ∧ op &&& 0x000F ≠ 0x000E) ∨
        (op &&& 0xF000 = 0xE000 ∧ op &&& 0x000F ≠ 0x000E ∧ op &&& 0x000F ≠ 0x0001) →
        s' = s) := by
  have hx' : op / 256 % 16 % 256 = op / 256 % 16 := by omega
  have hq : op / 4096 % 16 < 16 := Nat.mod_lt _ (by norm_num)
  have hr : op % 16 < 16 := Nat.mod_lt _ (by norm_num)
  simp only [specRecognised] at hun
  simp only [and_F000, and_000F, and_0F00_shift] at hsp hkey ⊢
  simp only [emulateCycle, hop, and_F000, and_000F, and_0F00_shift, hx']
  generalize op / 4096 % 16 = q at *
  generalize hm : op % 16 = m at *
  interval_cases q
  · simp only [exec0, and_000F, hm]
    simp at hsp ⊢
    split_ifs <;> simp_all
  · simp at hun
  · simp at hun
  · simp at hun
  · simp at hun
  · simp
    split_ifs <;> simp
  · simp at hun
  · simp at hun
  · simp at hun
    have hm8 : m ≠ 0 ∧ m ≠ 1 ∧ m ≠ 2 ∧ m ≠ 3 ∧ m ≠ 4 ∧ m ≠ 5 ∧ m ≠ 6 ∧ m ≠ 7 ∧ m ≠ 14 := by
      omega
    simp [exec8V, and_000F, hm, hm8]
  · simp
    split_ifs <;> simp
  · simp at hun
  · simp at hun
  · simp at hun
  · simp at hun
  · simp only [execE, and_000F, hm]
    simp at hkey ⊢
    split_ifs <;> simp_all
  · simp

/-- C10 witness: the word 0xFFFF with `VF = 200` leaves the machine unchanged; the word
0x012E with `sp = 1` and the word 0xE0AE with `V0 = 3` complete and keep the V
registers. -/
theorem C10_unknown_opcode_keeps_registers_witness :
    (fetch unknownFBigVfState = some 0xFFFF ∧ specRecognised 0xFFFF = false ∧
      fetch sysReturnWordState = some 0x012E ∧ specRecognised 0x012E = false ∧
      sysReturnWordState.sp < STACK_SIZE ∧
      fetch unknownSkipState = some 0xE0AE ∧ specRecognised 0xE0AE = false ∧
      unknownSkipState.V ((0xE0AE &&& 0x0F00) >>> 8) < KEY_COUNT) ∧
    emulateCycle 0 unknownFBigVfState = some unknownFBigVfState ∧
    (∃ s', emulateCycle 0 sysReturnWordState = some s' ∧ s'.V 2 = 9) ∧
    (∃ s', emulateCycle 0 unknownSkipState = some s' ∧ s'.V 0 = 3) := by
  refine ⟨by decide, ?_, ?_, ?_⟩
  · obtain ⟨s', h, -, hs⟩ :=
      C10_unknown_opcode_keeps_registers 0 unknownFBigVfState 0xFFFF (by decide) (by decide)
        (by decide) (by decide)
    rw [h, hs (by decide)]
  · obtain ⟨s', h, hV, -⟩ :=
      C10_unknown_opcode_keeps_registers 0 sysReturnWordState 0x012E (by decide) (by decide)
        (fun _ _ => by decide) (by decide)
    exact ⟨s', h, by rw [hV]; decide⟩
  · obtain ⟨s', h, hV, -⟩ :=
      C10_unknown_opcode_keeps_registers 0 unknownSkipState 0xE0AE (by decide) (by decide)
        (by decide) (fun _ _ => by decide)
    exact ⟨s', h, by rw [hV]; decide⟩

/-! ## C11, C12: initialise -/

/-- What `initialise` does: `pc`, `I`, `sp`, the display, the keypad and both timers are
reset, the first 80 bytes of memory receive the font table, and the rest of memory,
the V registers and the stack are kept. -/
theorem initialise_resets (font : Nat → Nat) (s : Chip8) :
    (initialise font s).pc = 0x200 ∧ (initialise font s).I = 0 ∧ (initialise font s).sp = 0 ∧
    (∀ i, (initialise font s).graphics i = 0) ∧ (∀ i, (initialise font s).keyboard i = 0) ∧
    (initialise font s).delay_timer = 0 ∧ (initialise font s).sound_timer = 0 ∧
    (∀ i, i < 80 → (initialise font s).memory i = font i % 256) ∧
    (∀ a, 80 ≤ a → (initialise font s).memory a = s.memory a) ∧
    (initialise font s).V = s.V ∧ (initialise font s).stack = s.stack := by
  refine ⟨rfl, rfl, rfl, fun _ => rfl, fun _ => rfl, rfl, rfl, ?_, ?_, rfl, rfl⟩
  · intro i hi
    simp [initialise, hi]
  · intro a ha
    have : ¬ a < 80 := by omega
    simp [initialise, this]

/-- C11 (code defect): `initialise` assigns neither `V` nor `stack`.  On a machine left
over from a previous run with `V3 = 7` and `stack[1] = 0x0234`, after `initialise`
(with any font table) `V3` is still 7 and `stack[1]` still 0x0234, not 0; `pc`, `I` and
`sp` are reset. -/
theorem C11_initialise_keeps_registers_and_stack :
    staleState.V 3 = 7 ∧ staleState.stack 1 = 0x0234 ∧ staleState.sp = 1 ∧
    ∀ font : Nat → Nat,
      (initialise font staleState).V 3 = 7 ∧ (initialise font staleState).stack 1 = 0x0234 ∧
      (initialise font staleState).pc = 0x200 ∧ (initialise font staleState).I = 0 ∧
      (initialise font staleState).sp = 0 := by
  refine ⟨by decide, by decide, rfl, fun font => ⟨?_, ?_, rfl, rfl, rfl⟩⟩
  · show staleState.V 3 = 7
    decide
  · show staleState.stack 1 = 0x0234
    decide

/-- C12: `initialise` is idempotent: applying it twice gives the same machine state, field
by field, as applying it once. -/
theorem C12_initialise_idempotent (font : Nat → Nat) (s : Chip8) :
    initialise font (initialise font s) = initialise font s := by
  have hmem : (fun a => if a < 80 then font a % 256
      else (if a < 80 then font a % 256 else s.memory a)) =
      fun a => if a < 80 then font a % 256 else s.memory a := by
    funext a
    split_ifs <;> rfl
  simp only [initialise, hmem]

/-! ## C13: loadGame -/

/-- The copy loop on a buffer that fits: it completes, the bytes land from `i + 512` on,
and every other byte is kept. -/
theorem loadGameLoop_fits (buffer : List Nat) : ∀ (i : Nat) (memory : Nat → Nat),
    i + buffer.length + 512 ≤ MEMORY_SIZE →
    ∃ m, loadGameLoop buffer i memory = some m ∧
      (∀ j, j < buffer.length → m (i + 512 + j) = buffer.getD j 0 % 256) ∧
      (∀ a, (a < i + 512 ∨ i + 512 + buffer.length ≤ a) → m a = memory a) := by
  induction buffer with
  | nil =>
    intro i memory _
    exact ⟨memory, rfl, by intro j hj; simp at hj, fun _ _ => rfl⟩
  | cons b rest ih =>
    intro i memory hfit
    simp only [List.length_cons] at hfit
    have hi : i + 512 < MEMORY_SIZE := by omega
    obtain ⟨m, hm, hcopy, hframe⟩ :=
      ih (i + 1) (Function.update memory (i + 512) (b % 256)) (by omega)
    refine ⟨m, by simp only [loadGameLoop, hi, if_true, hm], ?_, ?_⟩
    · intro j hj
      rcases Nat.eq_zero_or_pos j with h0 | hpos
      · subst h0
        rw [hframe (i + 512) (Or.inl (by omega))]
        simp
      · obtain ⟨j', rfl⟩ : ∃ j', j = j' + 1 := ⟨j - 1, by omega⟩
        simp only [List.length_cons] at hj
        have := hcopy j' (by omega)
        have e : i + 512 + (j' + 1) = i + 1 + 512 + j' := by omega
        rw [e, this]
        simp
    · intro a ha
      simp only [List.length_cons] at ha
      rw [hframe a (by omega)]
      have : a ≠ i + 512 := by omega
      simp [Function.update, this]

/-- C13: loading a byte sequence of at most 4096 - 512 bytes completes; afterwards
`memory[0x200 + i]` is `bytes[i]` for every `i < len(bytes)`, every memory byte outside
`[0x200, 0x200 + len(bytes))` is unchanged, and `pc`, `I`, `sp`, `V`, the stack, the
display, the keypad and both timers are unchanged; for the empty sequence the whole
state is unchanged. -/
theorem C13_loadGame_copies_program (s : Chip8) (bytes : List Nat)
    (hlen : bytes.length ≤ 4096 - 512) (hbyte : ∀ b ∈ bytes, b < 256) :
    ∃ s', loadGame (some bytes) s = some s' ∧
      (∀ i, i < bytes.length → s'.memory (0x200 + i) = bytes.getD i 0) ∧
      (∀ a, (a < 0x200 ∨ 0x200 + bytes.length ≤ a) → s'.memory a = s.memory a) ∧
      s'.pc = s.pc ∧ s'.I = s.I ∧ s'.sp = s.sp ∧ s'.V = s.V ∧ s'.stack = s.stack ∧
      s'.graphics = s.graphics ∧ s'.keyboard = s.keyboard ∧
      s'.delay_timer = s.delay_timer ∧ s'.sound_timer = s.sound_timer ∧
      (bytes = [] → s' = s) := by
  obtain ⟨m, hm, hcopy, hframe⟩ :=
    loadGameLoop_fits bytes 0 s.memory (by unfold MEMORY_SIZE; omega)
  refine ⟨{ s with memory := m }, by simp [loadGame, hm], ?_, ?_,
    rfl, rfl, rfl, rfl, rfl, rfl, rfl, rfl, rfl, ?_⟩
  · intro i hi
    have h := hcopy i hi
    have hb : bytes.getD i 0 < 256 := by
      rw [List.getD_eq_getElem _ _ hi]
      exact hbyte _ (List.getElem_mem _)
    simp only [Nat.zero_add] at h
    show m (0x200 + i) = _
    rw [show (0x200 : Nat) = 512 from rfl, h, Nat.mod_eq_of_lt hb]
  · intro a ha
    exact hframe a (by omega)
  · intro hnil
    subst hnil
    simp only [loadGameLoop, Option.some.injEq] at hm
    subst hm
    rfl

/-- C13 witness: loading the two bytes 0x12 0x34 into the blank machine puts them at 0x200
and 0x201 and leaves `pc` at 0x200. -/
theorem C13_loadGame_copies_program_witness :
    ([0x12, 0x34].length ≤ 4096 - 512 ∧ ∀ b ∈ [0x12, 0x34], b < 256) ∧
    ∃ s', loadGame (some [0x12, 0x34]) blank = some s' ∧
      s'.memory 0x200 = 0x12 ∧ s'.memory 0x201 = 0x34 ∧ s'.memory 0x1FF = 0 ∧
      s'.memory 0x202 = 0 ∧ s'.pc = 0x200 := by
  refine ⟨by decide, ?_⟩
  obtain ⟨s', h, hcopy, hframe, hpc, -⟩ :=
    C13_loadGame_copies_program blank [0x12, 0x34] (by decide) (by decide)
  exact ⟨s', h, hcopy 0 (by decide), hcopy 1 (by decide), hframe 0x1FF (Or.inl (by decide)),
    hframe 0x202 (Or.inr (by decide)), hpc⟩

/-! ## C14: DRW -/

/-- One cycle of `Dxyn` whose sprite rows lie inside memory only advances `pc` by 2: the
display, the V registers (VF included) and every other field are kept. -/
theorem drw_draws_nothing (rnd : Nat) (s : Chip8) (x y n : Nat) (hx : x < 16) (hy : y < 16)
    (hn : n < 16) (hI : s.I + n ≤ MEMORY_SIZE) (hop : fetch s = some (mkOp 0xD x y n)) :
    emulateCycle rnd s = some { s with pc := s.pc + 2 } := by
  have hpc := fetch_bound hop
  obtain ⟨h1, -, -, h4, -, -⟩ := decode_mkOp 0xD x y n (by omega) hx hy hn
  have hmod : (s.pc + 2) % 65536 = s.pc + 2 := Nat.mod_eq_of_lt (by omega)
  have hn' : n % 256 = n := Nat.mod_eq_of_lt (by omega)
  have hrows : ∀ i < n, i + s.I < MEMORY_SIZE := by
    intro i hi
    omega
  simp only [emulateCycle, hop, h1, h4, hmod, hn', if_pos hrows]
  simp

/-- C14 (code defect): `DRW V0,V0,1` with `V0 = 0`, `I = 0x300`, the sprite row 0x80 at
0x300 and a dark display leaves pixel (0, 0) dark: the claim gives it the value
`0 XOR 1 = 1` (bit 7 of the row).  The loop of the case only reads the sprite row. -/
theorem C14_drw_leaves_display_dark :
    fetch drwState = some (mkOp 0xD 0 0 1) ∧ drwState.I = 0x300 ∧
    drwState.memory 0x300 = 0x80 ∧ drwState.V 0 = 0 ∧ drwState.graphics 0 = 0 ∧
    (emulateCycle 0 drwState).map (fun s => (s.graphics 0, s.V 15, s.pc)) =
      some (0, 0, 0x202) := by
  decide

/-! ## C15: LD B,Vx -/

/-- C15 (code defect): `LD B,V0` with `V0 = 123` and `I = 0x300` stores nothing and does
not move `pc`: afterwards `memory[0x300..0x302]` is still 0, 0, 0 (the claim says
1, 2, 3) and `pc` is still 0x200 (the claim says 0x202).  The case is an empty
`break`. -/
theorem C15_bcd_stores_nothing :
    fetch bcdState = some (mkOp 0xF 0 3 3) ∧ bcdState.I = 0x300 ∧ bcdState.V 0 = 123 ∧
    bcdState.pc = 0x200 ∧
    (emulateCycle 0 bcdState).map
        (fun s => (s.memory 0x300, s.memory 0x301, s.memory 0x302, s.pc)) =
      some (0, 0, 0, 0x200) := by
  decide

/-! ## C16: SKP and SKNP -/

/-- C16: for `V[x] < 16`, one cycle of Ex9E moves `pc` by 4 when `keypad[V[x]]` is pressed
and by 2 otherwise, one cycle of ExA1 moves `pc` by 4 when `keypad[V[x]]` is not pressed
and by 2 otherwise; the cycle completes (the keypad lookup is in bounds) and no other
field changes. -/
theorem C16_skp_sknp (rnd : Nat) (s : Chip8) (x : Nat) (hx : x < 16)
    (hkey : s.V x < KEY_COUNT) :
    (fetch s = some (mkOp 0xE x 9 0xE) →
      emulateCycle rnd s =
        some { s with pc := s.pc + (if s.keyboard (s.V x) ≠ 0 then 4 else 2) }) ∧
    (fetch s = some (mkOp 0xE x 0xA 1) →
      emulateCycle rnd s =
        some { s with pc := s.pc + (if s.keyboard (s.V x) ≠ 0 then 2 else 4) }) := by
  constructor
  · intro hop
    have hpc := fetch_bound hop
    obtain ⟨h1, h2, -, h4, -, -⟩ :=
      decode_mkOp 0xE x 9 0xE (by omega) hx (by omega) (by omega)
    have hmod2 : (s.pc + 2) % 65536 = s.pc + 2 := Nat.mod_eq_of_lt (by omega)
    have hmod4 : (s.pc + 4) % 65536 = s.pc + 4 := Nat.mod_eq_of_lt (by omega)
    simp only [emulateCycle, hop, h1, h2, execE, h4, if_pos hkey]
    by_cases hk : s.keyboard (s.V x) = 0
    · simp [hk, hmod2, hmod4]
    · simp [hk, hmod2, hmod4]
  · intro hop
    have hpc := fetch_bound hop
    obtain ⟨h1, h2, -, h4, -, -⟩ :=
      decode_mkOp 0xE x 0xA 1 (by omega) hx (by omega) (by omega)
    have hmod2 : (s.pc + 2) % 65536 = s.pc + 2 := Nat.mod_eq_of_lt (by omega)
    have hmod4 : (s.pc + 4) % 65536 = s.pc + 4 := Nat.mod_eq_of_lt (by omega)
    simp only [emulateCycle, hop, h1, h2, execE, h4, if_pos hkey]
    by_cases hk : s.keyboard (s.V x) = 0
    · simp [hk, hmod2, hmod4]
    · simp [hk, hmod2, hmod4]

/-- C16 witness: with `V0 = 5` and key 5 pressed, `SKP V0` moves `pc` from 0x200 to 0x204
and `SKNP V0` moves it to 0x202. -/
theorem C16_skp_sknp_witness :
    (0 < 16 ∧ skpState.V 0 < KEY_COUNT ∧ fetch skpState = some (mkOp 0xE 0 9 0xE) ∧
      sknpState.V 0 < KEY_COUNT ∧ fetch sknpState = some (mkOp 0xE 0 0xA 1)) ∧
    emulateCycle 0 skpState = some { skpState with pc := 0x204 } ∧
    emulateCycle 0 sknpState = some { sknpState with pc := 0x202 } := by
  refine ⟨by decide, ?_, ?_⟩
  · exact (C16_skp_sknp 0 skpState 0 (by decide) (by decide)).1 (by decide)
  · exact (C16_skp_sknp 0 sknpState 0 (by decide) (by decide)).2 (by decide)

/-! ## What one cycle can change -/

/-- What one completed cycle can change, for any opcode `op` fetched at `pc`: memory, the
keypad and both timers are kept; the display is kept or, for a word with first and
last nibble 0, cleared; `pc` is kept, advanced by 2 or 4, or set to the target of a
control transfer (`nnn` for 1nnn and 2nnn, `nnn + V0` for Bnnn, `stack[sp]` for a
word with first nibble 0 and last nibble 0xE). -/
theorem emulateCycle_frame (rnd : Nat) (s s' : Chip8) (op : Nat) (hop : fetch s = some op)
    (h : emulateCycle rnd s = some s') :
    s'.memory = s.memory ∧ s'.keyboard = s.keyboard ∧
    s'.delay_timer = s.delay_timer ∧ s'.sound_timer = s.sound_timer ∧
    (s'.graphics = s.graphics ∨
      (op / 4096 % 16 = 0 ∧ op % 16 = 0 ∧ s'.graphics = fun _ => 0)) ∧
    (s'.pc = s.pc ∨ s'.pc = (s.pc + 2) % 65536 ∨ s'.pc = (s.pc + 4) % 65536 ∨
      ((op / 4096 % 16 = 1 ∨ op / 4096 % 16 = 2) ∧ s'.pc = op % 4096) ∨
      (op / 4096 % 16 = 0xB ∧ s'.pc = (op % 4096 + s.V 0) % 65536) ∨
      (op / 4096 % 16 = 0 ∧ op % 16 = 0xE ∧ s'.pc = s.stack s.sp)) := by
  have hq : op / 4096 % 16 < 16 := Nat.mod_lt _ (by norm_num)
  have hnnn : op % 4096 % 65536 = op % 4096 := by omega
  simp only [emulateCycle, hop, and_F000, and_0FFF, and_000F, hnnn] at h
  generalize op / 4096 % 16 = q at h hq ⊢
  interval_cases q <;> simp only [Nat.reduceMul, Nat.reduceEqDiff, reduceIte] at h
  · simp only [exec0, and_000F] at h
    split_ifs at h <;> cases h <;> simp_all
  all_goals (try simp only [execE, and_000F] at h)
  all_goals (try split_ifs at h)
  all_goals (cases h)
  all_goals simp

/-- A cycle whose opcode fetch and other array accesses are in bounds completes. -/
theorem emulateCycle_total (rnd : Nat) (s : Chip8) (op : Nat) (hop : fetch s = some op)
    (hb : accessesInBounds s op) :
    ∃ s', emulateCycle rnd s = some s' := by
  obtain ⟨hret, hcall, hdrw, hkey⟩ := hb
  have hq : op / 4096 % 16 < 16 := Nat.mod_lt _ (by norm_num)
  have hx : op / 256 % 16 % 256 = op / 256 % 16 := by omega
  have hn : op % 16 % 256 = op % 16 := by omega
  simp only [and_F000, and_000F, and_0F00_shift] at hret hcall hdrw hkey
  apply Option.isSome_iff_exists.mp
  simp only [emulateCycle, hop, and_F000, and_0F00_shift, and_000F, hx, hn]
  generalize op / 4096 % 16 = q at hq hret hcall hdrw hkey ⊢
  interval_cases q <;>
    simp only [Nat.reduceMul, Nat.reduceEqDiff, reduceIte, false_implies, true_implies]
      at hret hcall hdrw hkey ⊢
  · simp only [exec0, and_000F]
    split_ifs <;> first
      | rfl
      | exact absurd (hret (by assumption)) (by assumption)
  · rfl
  · have hsp1 : (s.sp + 1) % SP_MOD < STACK_SIZE := by
      unfold STACK_SIZE at hcall ⊢
      unfold SP_MOD
      omega
    simp only [if_pos hsp1]; rfl
  · split_ifs <;> rfl
  · split_ifs <;> rfl
  · split_ifs <;> rfl
  · rfl
  · rfl
  · rfl
  · split_ifs <;> rfl
  · rfl
  · rfl
  · rfl
  · simp only [if_pos hdrw]; rfl
  · simp only [execE, and_000F]
    split_ifs <;> first
      | rfl
      | exact absurd (hkey (Or.inl (by assumption))) (by assumption)
      | exact absurd (hkey (Or.inr (by assumption))) (by assumption)
  · rfl

/-- Conversely, a cycle that completes has all its array accesses in bounds (for a stack
pointer that does not wrap around in `++sp`): `accessesInBounds` leaves out exactly the
cycles with an access outside an array. -/
theorem accessesInBounds_of_completes (rnd : Nat) (s s' : Chip8) (op : Nat)
    (hop : fetch s = some op) (hnowrap : s.sp + 1 < SP_MOD)
    (h : emulateCycle rnd s = some s') :
    accessesInBounds s op := by
  have hx : op / 256 % 16 % 256 = op / 256 % 16 := by omega
  have hn : (op &&& 0x000F) % 256 = op &&& 0x000F := by
    rw [and_000F]; omega
  have hsp1 : (s.sp + 1) % SP_MOD = s.sp + 1 := Nat.mod_eq_of_lt hnowrap
  simp only [emulateCycle, hop, hsp1, hn, and_0F00_shift, hx] at h
  refine ⟨fun h0 hE => ?_, fun h2 => ?_, fun hD => ?_, fun hE hl => ?_⟩
  · simp only [h0, reduceIte, exec0, hE, Nat.reduceEqDiff] at h
    by_contra hc
    simp [hc] at h
  · simp only [h2, Nat.reduceEqDiff, reduceIte] at h
    by_contra hc
    simp [hc] at h
  · simp only [hD, Nat.reduceEqDiff, reduceIte] at h
    by_contra hc
    simp [hc] at h
  · simp only [hE, Nat.reduceEqDiff, reduceIte, execE] at h
    rw [and_0F00_shift]
    by_contra hc
    rcases hl with hl | hl <;> simp [hl, hc] at h

/-! ## C17: the program counter and the memory bounds -/

/-- C17 (counterexample): `pc <= 0xFFE` is not kept by one cycle.  `LD V0,0` at
`pc = 0xFFE` leaves `pc = 0x1000`; `SE V0,0` at `pc = 0xFFC` with `V0 = 0` leaves
`pc = 0x1000`; `JP 0xFFF` leaves `pc = 0xFFF`: in each case the next fetch is outside
memory.  And a cycle with an array access outside its array has no defined result at
all: `CALL 0x200` at `sp = 15` (store at `stack[16]`), `RET` at `sp = 16`,
`DRW V0,V0,2` at `I = 0xFFF`, `SKP V0` with `V0 = 16`, all at `pc = 0x200`. -/
theorem C17_pc_leaves_memory :
    (lastWordState.pc = 0xFFE ∧ fetch lastWordState = some 0x6000 ∧
      (emulateCycle 0 lastWordState).map (fun s => (s.pc, (fetch s).isSome)) =
        some (0x1000, false)) ∧
    (skipNearEndState.pc = 0xFFC ∧ fetch skipNearEndState = some 0x3000 ∧
      (emulateCycle 0 skipNearEndState).map (fun s => (s.pc, (fetch s).isSome)) =
        some (0x1000, false)) ∧
    (jumpToLastByteState.pc = 0x200 ∧ fetch jumpToLastByteState = some 0x1FFF ∧
      (emulateCycle 0 jumpToLastByteState).map (fun s => (s.pc, (fetch s).isSome)) =
        some (0xFFF, false)) ∧
    (callAtTopState.pc = 0x200 ∧ fetch callAtTopState = some 0x2200 ∧
      callAtTopState.sp = 15 ∧ (emulateCycle 0 callAtTopState).isSome = false) ∧
    (retOutsideState.pc = 0x200 ∧ fetch retOutsideState = some 0x00EE ∧
      retOutsideState.sp = 16 ∧ (emulateCycle 0 retOutsideState).isSome = false) ∧
    (drwOutsideState.pc = 0x200 ∧ fetch drwOutsideState = some 0xD002 ∧
      drwOutsideState.I = 0xFFF ∧ (emulateCycle 0 drwOutsideState).isSome = false) ∧
    (skpOutsideState.pc = 0x200 ∧ fetch skpOutsideState = some 0xE09E ∧
      skpOutsideState.V 0 = 16 ∧ (emulateCycle 0 skpOutsideState).isSome = false) := by
  decide

/-- C17 (amended): from `pc <= 0xFFA`, one cycle with any opcode whose array accesses are
in bounds completes and leaves `pc <= 0xFFE`, so that the next fetch is in bounds,
provided the target of a control transfer is itself at most 0xFFE: `nnn` for 1nnn and
2nnn, `nnn + V0` for Bnnn, `stack[sp]` for the return forms (first nibble 0, last
nibble 0xE). -/
theorem C17_pc_stays_in_memory (rnd : Nat) (s : Chip8) (op : Nat)
    (hpc : s.pc ≤ 0xFFA) (hop : fetch s = some op) (hb : accessesInBounds s op)
    (hjp : op &&& 0xF000 = 0x1000 ∨ op &&& 0xF000 = 0x2000 → op &&& 0x0FFF ≤ 0xFFE)
    (hjv : op &&& 0xF000 = 0xB000 → (op &&& 0x0FFF) + s.V 0 ≤ 0xFFE)
    (hret : op &&& 0xF000 = 0x0000 → op &&& 0x000F = 0x000E → s.stack s.sp ≤ 0xFFE) :
    ∃ s', emulateCycle rnd s = some s' ∧ s'.pc ≤ 0xFFE ∧ (fetch s').isSome = true := by
  obtain ⟨s', h⟩ := emulateCycle_total rnd s op hop hb
  have key : s'.pc ≤ 0xFFE := by
    simp only [and_F000, and_0FFF, and_000F] at hjp hjv hret
    obtain ⟨-, -, -, -, -, hcases⟩ := emulateCycle_frame rnd s s' op hop h
    rcases hcases with h0 | h2 | h4 | ⟨hk, ht⟩ | ⟨hk, ht⟩ | ⟨hk, hl, ht⟩
    · omega
    · omega
    · omega
    · have := hjp (by omega)
      omega
    · have := hjv (by omega)
      omega
    · have := hret (by omega) hl
      omega
  refine ⟨s', h, key, ?_⟩
  have : s'.pc + 1 < MEMORY_SIZE := by unfold MEMORY_SIZE; omega
  simp [fetch, this]

/-- C17 witness: `CALL 0x300` at `pc = 0x200` with an empty stack completes and leaves
`pc` inside memory. -/
theorem C17_pc_stays_in_memory_witness :
    (callRetState.pc ≤ 0xFFA ∧ fetch callRetState = some 0x2300 ∧
      callRetState.sp + 1 < STACK_SIZE ∧ 0x2300 &&& 0xF000 = 0x2000 ∧
      0x2300 &&& 0x0FFF ≤ 0xFFE) ∧
    ∃ s', emulateCycle 0 callRetState = some s' ∧ s'.pc ≤ 0xFFE ∧
      (fetch s').isSome = true := by
  refine ⟨by decide, ?_⟩
  exact C17_pc_stays_in_memory 0 callRetState 0x2300 (by decide) (by decide)
    (by unfold accessesInBounds; decide) (by decide) (by decide) (by decide)

/-! ## C18: memory below 0x200 -/

/-- C18 (counterexample): a cycle with an array access outside its array has no defined
result, so nothing is kept for it: `CALL 0x200` at `sp = 15` stores `pc` at
`stack[16]`, past the 16 slots of the stack; `RET` at `sp = 16` reads `stack[16]`;
`DRW V0,V0,2` at `I = 0xFFF` reads `memory[0x1000]`; `SKP V0` with `V0 = 16` reads
`keyboard[16]`.  Hence it is not true that for every machine state with an opcode at
`pc` one cycle ends in a state with the same `memory[0x000..0x1FF]`. -/
theorem C18_out_of_array_access_undefined :
    (fetch callAtTopState = some 0x2200 ∧ callAtTopState.sp = 15 ∧
      (emulateCycle 0 callAtTopState).isSome = false) ∧
    (fetch retOutsideState = some 0x00EE ∧ retOutsideState.sp = 16 ∧
      (emulateCycle 0 retOutsideState).isSome = false) ∧
    (fetch drwOutsideState = some 0xD002 ∧ drwOutsideState.I = 0xFFF ∧
      (emulateCycle 0 drwOutsideState).isSome = false) ∧
    (fetch skpOutsideState = some 0xE09E ∧ skpOutsideState.V 0 = 16 ∧
      (emulateCycle 0 skpOutsideState).isSome = false) ∧
    ¬ ∀ (rnd : Nat) (s : Chip8), (fetch s).isSome = true →
        ∃ s', emulateCycle rnd s = some s' ∧ ∀ a, a < 0x200 → s'.memory a = s.memory a := by
  refine ⟨by decide, by decide, by decide, by decide, ?_⟩
  intro hall
  obtain ⟨s', h, -⟩ := hall 0 callAtTopState (by decide)
  have hnone : (emulateCycle 0 callAtTopState).isSome = false := by decide
  rw [h] at hnone
  exact absurd hnone (by simp)

/-- C18 (amended): for every machine state and every opcode for which the array accesses
of the cycle are in bounds, one cycle completes and writes no memory byte below 0x200:
`memory[0x000..0x1FF]` after the cycle equals `memory[0x000..0x1FF]` before it (the
cycle writes no memory byte at all). -/
theorem C18_low_memory_unchanged (rnd : Nat) (s : Chip8) (op : Nat)
    (hop : fetch s = some op) (hb : accessesInBounds s op) :
    ∃ s', emulateCycle rnd s = some s' ∧
      (∀ a, a < 0x200 → s'.memory a = s.memory a) ∧ s'.memory = s.memory := by
  obtain ⟨s', h⟩ := emulateCycle_total rnd s op hop hb
  obtain ⟨hmem, -⟩ := emulateCycle_frame rnd s s' op hop h
  exact ⟨s', h, fun a _ => by rw [hmem], hmem⟩

/-- C18 witness: `CALL 0x300` with an empty stack completes and keeps the memory. -/
theorem C18_low_memory_unchanged_witness :
    (fetch callRetState = some 0x2300 ∧ 0x2300 &&& 0xF000 = 0x2000 ∧
      callRetState.sp + 1 < STACK_SIZE) ∧
    ∃ s', emulateCycle 0 callRetState = some s' ∧
      (∀ a, a < 0x200 → s'.memory a = callRetState.memory a) ∧
      s'.memory = callRetState.memory := by
  refine ⟨by decide, ?_⟩
  exact C18_low_memory_unchanged 0 callRetState 0x2300 (by decide)
    (by unfold accessesInBounds; decide)

/-! ## C19: the display -/

/-- C19 (counterexample): the words 0x0120 and 0x0000 are neither 0x00E0 nor of the Dxyn
family, yet one cycle clears a display whose pixel 0 is lit: every word with first and
last nibble 0 is executed as CLS.  And a cycle with an array access outside its array
has no defined result at all: `CALL 0x200` at `sp = 15` (store at `stack[16]`), `RET`
at `sp = 16`, `SKP V0` with `V0 = 16`. -/
theorem C19_sys_words_clear_display :
    (fetch sysWordState = some 0x0120 ∧ sysWordState.graphics 0 = 1 ∧
      (emulateCycle 0 sysWordState).map (fun s => s.graphics 0) = some 0) ∧
    (fetch zeroWordState = some 0x0000 ∧ zeroWordState.graphics 0 = 1 ∧
      (emulateCycle 0 zeroWordState).map (fun s => s.graphics 0) = some 0) ∧
    (fetch callAtTopState = some 0x2200 ∧ callAtTopState.sp = 15 ∧
      (emulateCycle 0 callAtTopState).isSome = false) ∧
    (fetch retOutsideState = some 0x00EE ∧ retOutsideState.sp = 16 ∧
      (emulateCycle 0 retOutsideState).isSome = false) ∧
    (fetch skpOutsideState = some 0xE09E ∧ skpOutsideState.V 0 = 16 ∧
      (emulateCycle 0 skpOutsideState).isSome = false) := by
  decide

/-- C19 (amended): for every 16-bit opcode other than the words with first and last nibble
0 (which are all executed as CLS) and the Dxyn family, and every machine state for
which the array accesses of the cycle are in bounds, one cycle completes and the
display after it equals the display before it. -/
theorem C19_display_unchanged (rnd : Nat) (s : Chip8) (op : Nat)
    (hop : fetch s = some op) (hb : accessesInBounds s op)
    (hcls : ¬ (op &&& 0xF000 = 0x0000 ∧ op &&& 0x000F = 0x0000))
    (_hdrw : op &&& 0xF000 ≠ 0xD000) :
    ∃ s', emulateCycle rnd s = some s' ∧ s'.graphics = s.graphics := by
  obtain ⟨s', h⟩ := emulateCycle_total rnd s op hop hb
  simp only [and_F000, and_000F] at hcls
  obtain ⟨-, -, -, -, hg, -⟩ := emulateCycle_frame rnd s s' op hop h
  rcases hg with hg | ⟨hk, hl, -⟩
  · exact ⟨s', h, hg⟩
  · exact absurd ⟨by omega, hl⟩ hcls

/-- C19 witness: `CALL 0x300` with an empty stack completes and keeps the display. -/
theorem C19_display_unchanged_witness :
    (fetch callRetState = some 0x2300 ∧ callRetState.sp + 1 < STACK_SIZE ∧
      ¬ (0x2300 &&& 0xF000 = 0x0000 ∧ 0x2300 &&& 0x000F = 0x0000) ∧
      0x2300 &&& 0xF000 ≠ 0xD000) ∧
    ∃ s', emulateCycle 0 callRetState = some s' ∧ s'.graphics = callRetState.graphics := by
  refine ⟨by decide, ?_⟩
  exact C19_display_unchanged 0 callRetState 0x2300 (by decide)
    (by unfold accessesInBounds; decide) (by decide) (by decide)

/-! ## C20: opcodes with first nibble 0xF -/

/-- C20: when the opcode at `pc` has first nibble 0xF, one cycle leaves the whole machine
state unchanged, `pc` included; the state is a fixed point of the step and is the same
after any number `k` of cycles. -/
theorem C20_fx_is_fixed_point (s : Chip8) (op : Nat) (hop : fetch s = some op)
    (hF : op &&& 0xF000 = 0xF000) :
    (∀ rnd : Nat, emulateCycle rnd s = some s) ∧
    ∀ (k : Nat) (rnd : Nat → Nat), run rnd k s = some s := by
  have hstep : ∀ rnd : Nat, emulateCycle rnd s = some s := by
    intro rnd
    simp only [emulateCycle, hop, hF]
    simp
  refine ⟨hstep, ?_⟩
  intro k
  induction k with
  | zero => intro rnd; rfl
  | succ k ih =>
    intro rnd
    simp only [run, hstep, Option.bind]
    exact ih _

/-- C20 witness: `LD V1,K` (0xF10A) at `pc = 0x200` leaves the machine unchanged, also
after 1000 cycles. -/
theorem C20_fx_is_fixed_point_witness :
    (fetch keyWaitState = some 0xF10A ∧ 0xF10A &&& 0xF000 = 0xF000) ∧
    emulateCycle 0 keyWaitState = some keyWaitState ∧
    run (fun _ => 0) 1000 keyWaitState = some keyWaitState := by
  refine ⟨by decide, ?_, ?_⟩
  · exact (C20_fx_is_fixed_point keyWaitState 0xF10A (by decide) (by decide)).1 0
  · exact (C20_fx_is_fixed_point keyWaitState 0xF10A (by decide) (by decide)).2 1000 _

end emulator
